import Mathlib

/-!
Verification of the asgard-mcp-server core (pkg/mcp/api_client.go,
pkg/mcp/server.go, and the constants/DetectMime file) against its
specification.  The Go code is shallowly embedded: HTTP traffic is
modelled by explicit `HttpResponse` values (the network is a function
from the built request to a response), the local filesystem by an
association list from paths to byte lists, and JSON documents by an
inductive `Json` type.  `encoding/json` behaviour that the code relies
on (case-insensitive field matching, `null` no-op semantics,
`json.RawMessage` receiving the literal `null`, map round-trips losing
key order and duplicate keys) is modelled explicitly where the code
depends on it.
-/

namespace AsgardMcp

/-- A JSON document.  Object members are kept in source order (Go's
decoder sees them in order; duplicate keys are possible in the input). -/
inductive Json where
  | null : Json
  | bool (b : Bool) : Json
  | num (n : Int) : Json
  | str (s : String) : Json
  | arr (elems : List Json) : Json
  | obj (members : List (String × Json)) : Json

mutual

/-- Boolean structural equality on `Json` (the nested lists prevent the
derived instance). -/
def jbeq : Json → Json → Bool
  | Json.null, Json.null => true
  | Json.bool a, Json.bool b => a == b
  | Json.num a, Json.num b => a == b
  | Json.str a, Json.str b => a == b
  | Json.arr xs, Json.arr ys => jbeqList xs ys
  | Json.obj ms, Json.obj ns => jbeqMembers ms ns
  | _, _ => false

def jbeqList : List Json → List Json → Bool
  | [], [] => true
  | x :: xs, y :: ys => jbeq x y && jbeqList xs ys
  | _, _ => false

def jbeqMembers : List (String × Json) → List (String × Json) → Bool
  | [], [] => true
  | (k, v) :: ms, (l, w) :: ns => k == l && jbeq v w && jbeqMembers ms ns
  | _, _ => false

end

mutual

def jbeq_refl : ∀ a : Json, jbeq a a = true
  | Json.null => rfl
  | Json.bool b => by simp [jbeq]
  | Json.num n => by simp [jbeq]
  | Json.str s => by simp [jbeq]
  | Json.arr xs => by simp [jbeq, jbeqList_refl xs]
  | Json.obj ms => by simp [jbeq, jbeqMembers_refl ms]

def jbeqList_refl : ∀ xs : List Json, jbeqList xs xs = true
  | [] => rfl
  | x :: xs => by simp [jbeqList, jbeq_refl x, jbeqList_refl xs]

def jbeqMembers_refl : ∀ ms : List (String × Json), jbeqMembers ms ms = true
  | [] => rfl
  | (k, v) :: ms => by simp [jbeqMembers, jbeq_refl v, jbeqMembers_refl ms]

end

mutual

def jbeq_eq : ∀ a b : Json, jbeq a b = true → a = b
  | Json.null, Json.null, _ => rfl
  | Json.bool _, Json.bool _, h => by simp [jbeq] at h; rw [h]
  | Json.num _, Json.num _, h => by simp [jbeq] at h; rw [h]
  | Json.str _, Json.str _, h => by simp [jbeq] at h; rw [h]
  | Json.arr xs, Json.arr ys, h => by
      rw [jbeqList_eq xs ys (by simpa [jbeq] using h)]
  | Json.obj ms, Json.obj ns, h => by
      rw [jbeqMembers_eq ms ns (by simpa [jbeq] using h)]
  | Json.null, Json.bool _, h => by simp [jbeq] at h
  | Json.null, Json.num _, h => by simp [jbeq] at h
  | Json.null, Json.str _, h => by simp [jbeq] at h
  | Json.null, Json.arr _, h => by simp [jbeq] at h
  | Json.null, Json.obj _, h => by simp [jbeq] at h
  | Json.bool _, Json.null, h => by simp [jbeq] at h
  | Json.bool _, Json.num _, h => by simp [jbeq] at h
  | Json.bool _, Json.str _, h => by simp [jbeq] at h
  | Json.bool _, Json.arr _, h => by simp [jbeq] at h
  | Json.bool _, Json.obj _, h => by simp [jbeq] at h
  | Json.num _, Json.null, h => by simp [jbeq] at h
  | Json.num _, Json.bool _, h => by simp [jbeq] at h
  | Json.num _, Json.str _, h => by simp [jbeq] at h
  | Json.num _, Json.arr _, h => by simp [jbeq] at h
  | Json.num _, Json.obj _, h => by simp [jbeq] at h
  | Json.str _, Json.null, h => by simp [jbeq] at h
  | Json.str _, Json.bool _, h => by simp [jbeq] at h
  | Json.str _, Json.num _, h => by simp [jbeq] at h
  | Json.str _, Json.arr _, h => by simp [jbeq] at h
  | Json.str _, Json.obj _, h => by simp [jbeq] at h
  | Json.arr _, Json.null, h => by simp [jbeq] at h
  | Json.arr _, Json.bool _, h => by simp [jbeq] at h
  | Json.arr _, Json.num _, h => by simp [jbeq] at h
  | Json.arr _, Json.str _, h => by simp [jbeq] at h
  | Json.arr _, Json.obj _, h => by simp [jbeq] at h
  | Json.obj _, Json.null, h => by simp [jbeq] at h
  | Json.obj _, Json.bool _, h => by simp [jbeq] at h
  | Json.obj _, Json.num _, h => by simp [jbeq] at h
  | Json.obj _, Json.str _, h => by simp [jbeq] at h
  | Json.obj _, Json.arr _, h => by simp [jbeq] at h

def jbeqList_eq : ∀ xs ys : List Json, jbeqList xs ys = true → xs = ys
  | [], [], _ => rfl
  | x :: xs, y :: ys, h => by
      simp only [jbeqList, Bool.and_eq_true] at h
      rw [jbeq_eq x y h.1, jbeqList_eq xs ys h.2]
  | [], _ :: _, h => by simp [jbeqList] at h
  | _ :: _, [], h => by simp [jbeqList] at h

def jbeqMembers_eq :
    ∀ ms ns : List (String × Json), jbeqMembers ms ns = true → ms = ns
  | [], [], _ => rfl
  | (k, v) :: ms, (l, w) :: ns, h => by
      simp only [jbeqMembers, Bool.and_eq_true, beq_iff_eq] at h
      rw [h.1.1, jbeq_eq v w h.1.2, jbeqMembers_eq ms ns h.2]
  | [], _ :: _, h => by simp [jbeqMembers] at h
  | _ :: _, [], h => by simp [jbeqMembers] at h

end

instance : DecidableEq Json := fun a b =>
  decidable_of_iff (jbeq a b = true)
    ⟨jbeq_eq a b, fun h => h ▸ jbeq_refl a⟩

instance {ε α : Type} [DecidableEq ε] [DecidableEq α] :
    DecidableEq (Except ε α) := fun x y =>
  match x, y with
  | Except.ok a, Except.ok b =>
      if h : a = b then Decidable.isTrue (h ▸ rfl)
      else Decidable.isFalse fun e => h (Except.ok.inj e)
  | Except.error a, Except.error b =>
      if h : a = b then Decidable.isTrue (h ▸ rfl)
      else Decidable.isFalse fun e => h (Except.error.inj e)
  | Except.ok _, Except.error _ =>
      Decidable.isFalse fun e => Except.noConfusion e
  | Except.error _, Except.ok _ =>
      Decidable.isFalse fun e => Except.noConfusion e

/-- An HTTP response body: bytes that parse as a JSON document, or bytes
that are not valid JSON at all (`text`).  `ExecuteToolRequest` only ever
distinguishes bodies up to this granularity. -/
inductive Body where
  | json (j : Json) : Body
  | text (s : String) : Body
deriving DecidableEq

/-- An HTTP response as seen by the client: status code and raw body. -/
structure HttpResponse where
  status : Nat
  body : Body
deriving DecidableEq

/-- `invoke_endpoints` of a tool (api_client.go, ToolInvokeEndpoints). -/
structure ToolInvokeEndpoints where
  Json : String
  Form : String
deriving DecidableEq

/-- A tool descriptor (api_client.go, Tool).  `InputSchema` is a Go
`json.RawMessage`: `none` models the nil message (key absent in the
manifest), `some j` models raw bytes whose parse is `j` (note that a
manifest `"input_schema": null` yields `some .null`, because
`RawMessage.UnmarshalJSON` receives the literal `null`). -/
structure Tool where
  Name : String
  Description : String
  InputSchema : Option Json
  AllowUploadFiles : Bool
  InvokeEndpoints : ToolInvokeEndpoints
deriving DecidableEq

/-- The toolset manifest (api_client.go, ToolsetManifest). -/
structure ToolsetManifest where
  Namespace : String
  Name : String
  Generation : Int
  Tools : List Tool
deriving DecidableEq

/-- The errors the embedded code can produce.  Each constructor mirrors
one `fmt.Errorf` site of the Go source (the carried arguments are the
format verbs of that site). -/
inductive Err where
  /-- api_client.go: "tool %s has no invoke endpoint" -/
  | noEndpoint (toolName : String)
  /-- api_client.go: "failed to parse uploaded_file_paths: %w" -/
  | parseUploadPaths
  /-- api_client.go: "failed to open file %s: %w" -/
  | ioOpen (path : String)
  /-- DetectMime: "failed to open file %s: %w" -/
  | mimeOpen (path : String)
  /-- DetectMime: "failed to read file: %w" (the wrapped error is io.EOF
  when the file is empty) -/
  | mimeRead
  /-- api_client.go: "failed to detect MIME type for file %s: %w" -/
  | mimeDetect (path : String) (inner : Err)
  /-- "unexpected status code: %d, body: %s" (a TransportError in the
  spec's taxonomy: it carries the status and the raw body) -/
  | transport (status : Nat) (body : Body)
  /-- "failed to unmarshal response: %w" (manifest fetch only) -/
  | unmarshalManifest
  /-- "API error: %s" (a RemoteError in the spec's taxonomy) -/
  | remote (msg : String)
  /-- server.go: "failed to parse input schema for tool %s: %w" -/
  | schemaParse (toolName : String)
  /-- server.go, NewServer: "failed to fetch toolset manifest: %w" -/
  | fetchManifestFailed (inner : Err)
  /-- server.go, NewServer: "failed to register tool handlers: %w" -/
  | registerFailed (inner : Err)
deriving DecidableEq

/-! ### encoding/json field decoding

`json.Unmarshal` into a struct matches incoming object keys to struct
field tags preferring an exact match but also accepting a
case-insensitive match; assignments happen in input order, so the last
matching member wins.  Unmarshalling JSON `null` into a plain field is a
no-op, into a pointer field sets it to nil, and into a
`json.Unmarshaler` (such as `json.RawMessage`) passes the literal
`null` through.  A type mismatch on any matching member makes the whole
`Unmarshal` return an error. -/

/-- ASCII case folding of one character (as its code point). -/
def foldCharNat (c : Char) : Nat :=
  let n := c.toNat
  if 65 ≤ n ∧ n ≤ 90 then n + 32 else n

/-- Case-insensitive key matching, modelling encoding/json's
field-name match (fold on letter case; the tags of this code are
ASCII, so ASCII folding suffices). -/
def nameMatch (key tag : String) : Bool :=
  key.data.map foldCharNat == tag.data.map foldCharNat

/-- The members of an object that decode into the struct field with the
given tag, in input order. -/
def fieldMatches (ms : List (String × Json)) (tag : String) :
    List Json :=
  (ms.filter fun p => nameMatch p.1 tag).map Prod.snd

/-- Decode a `bool` struct field: `null` is a no-op, a bool sets the
field, anything else is a type error (`none`). -/
def goBoolField (ms : List (String × Json)) (tag : String) :
    Option Bool :=
  (fieldMatches ms tag).foldlM
    (fun acc v =>
      match v with
      | Json.bool b => some b
      | Json.null => some acc
      | _ => none)
    false

/-- Decode a `string` struct field into an existing value (decoding
merges into whatever the field already holds): `null` is a no-op, a
string sets the field, anything else is a type error. -/
def goStringFieldFrom (init : String) (ms : List (String × Json))
    (tag : String) : Option String :=
  (fieldMatches ms tag).foldlM
    (fun acc v =>
      match v with
      | Json.str s => some s
      | Json.null => some acc
      | _ => none)
    init

/-- Decode a `string` struct field of a freshly zeroed struct. -/
def goStringField (ms : List (String × Json)) (tag : String) :
    Option String :=
  goStringFieldFrom "" ms tag

/-- Decode an `int` struct field into an existing value. -/
def goIntFieldFrom (init : Int) (ms : List (String × Json))
    (tag : String) : Option Int :=
  (fieldMatches ms tag).foldlM
    (fun acc v =>
      match v with
      | Json.num n => some n
      | Json.null => some acc
      | _ => none)
    init

/-- Decode an `int` struct field of a freshly zeroed struct. -/
def goIntField (ms : List (String × Json)) (tag : String) :
    Option Int :=
  goIntFieldFrom 0 ms tag

/-- Decode a `*string` struct field: `null` sets the pointer to nil,
a string sets it, anything else is a type error.  The outer `Option` is
decode failure, the inner one is pointer nil-ness. -/
def goStringPtrField (ms : List (String × Json)) (tag : String) :
    Option (Option String) :=
  (fieldMatches ms tag).foldlM
    (fun _acc v =>
      match v with
      | Json.str s => some (some s)
      | Json.null => some none
      | _ => none)
    (none : Option String)

/-- Decode a `json.RawMessage` struct field: every JSON value is
accepted verbatim, including the literal `null` (RawMessage implements
`json.Unmarshaler`, which is called even for `null`).  `none` means the
key was absent, leaving the nil RawMessage. -/
def goRawField (ms : List (String × Json)) (tag : String) :
    Option Json :=
  (fieldMatches ms tag).foldl (fun _ v => some v) none

/-- The invoke-response envelope struct of `ExecuteToolRequest`
(api_client.go): isSuccess, data (RawMessage), error (*string),
errorCode (*string). -/
structure InvokeEnvelope where
  IsSuccess : Bool
  Data : Option Json
  Error : Option String
  ErrorCode : Option String
deriving DecidableEq

/-- `json.Unmarshal(respBytes, &asgardResponse)`.  `none` is the
decode-error case: a body that is not valid JSON, a top-level value
that is neither an object nor `null`, or a type mismatch on any
matching member. -/
def decodeInvokeEnvelope : Body → Option InvokeEnvelope
  | Body.text _ => none
  | Body.json Json.null => some ⟨false, none, none, none⟩
  | Body.json (Json.obj ms) => do
      let isSuccess ← goBoolField ms "isSuccess"
      let err ← goStringPtrField ms "error"
      let errCode ← goStringPtrField ms "errorCode"
      pure ⟨isSuccess, goRawField ms "data", err, errCode⟩
  | Body.json _ => none

/-- The tail of `ExecuteToolRequest` (api_client.go, from the status
check on): status check, envelope parse with raw passthrough on parse
failure, success-flag check, and the data/raw-body selection. -/
def handleInvokeResponse (resp : HttpResponse) : Except Err Body :=
  if resp.status ≠ 200 then
    Except.error (Err.transport resp.status resp.body)
  else
    match decodeInvokeEnvelope resp.body with
    | none => Except.ok resp.body
    | some env =>
        if !env.IsSuccess then
          Except.error (Err.remote (env.Error.getD "unknown error"))
        else
          match env.Data with
          | some d => Except.ok (Body.json d)
          | none => Except.ok resp.body

/-! ### Go maps and `interface{}` values

Unmarshalling into `map[string]interface{}` turns every nested object
into a map: duplicate keys collapse (the later member wins) and key
order is lost; `json.Marshal` of a map emits its keys sorted.  `canon`
is that round-trip on a `Json` document. -/

/-- Store into an association-list map: replace the existing entry for
the key, or append. -/
def mapInsert : List (String × Json) → String → Json → List (String × Json)
  | [], k, v => [(k, v)]
  | (l, w) :: ms, k, v =>
      if l = k then (k, v) :: ms else (l, w) :: mapInsert ms k v

/-- Look a key up in an association-list map built by `mapInsert`
semantics: the value of the last member with that exact key (Go map
indexing is exact, no case folding). -/
def mapLookupLast (ms : List (String × Json)) (k : String) : Option Json :=
  ((ms.filter fun p => p.1 == k).getLast?).map Prod.snd

/-- Whether the map has an entry for the key. -/
def mapHasKey (ms : List (String × Json)) (k : String) : Bool :=
  ms.any fun p => p.1 == k

/-- Collapse duplicate keys, later member winning (what building a Go
map from the members does). -/
def dedupMembers (ms : List (String × Json)) : List (String × Json) :=
  ms.foldl (fun acc p => mapInsert acc p.1 p.2) []

/-- Strict lexicographic order on character lists by code point (on
valid UTF-8 this coincides with Go's byte order on strings). -/
def charListLt : List Char → List Char → Bool
  | [], [] => false
  | [], _ :: _ => true
  | _ :: _, [] => false
  | c :: cs, d :: ds =>
      if c.toNat < d.toNat then true
      else if d.toNat < c.toNat then false
      else charListLt cs ds

/-- The key order `json.Marshal` sorts map keys by. -/
def keyLt (a b : String) : Bool := charListLt a.data b.data

/-- Insert into a key-sorted member list. -/
def insertSorted (p : String × Json) :
    List (String × Json) → List (String × Json)
  | [] => [p]
  | q :: qs => if keyLt p.1 q.1 then p :: q :: qs else q :: insertSorted p qs

/-- Sort members by key (Go's `json.Marshal` emits map keys sorted). -/
def sortMembers (ms : List (String × Json)) : List (String × Json) :=
  ms.foldr insertSorted []

mutual

/-- The `map[string]interface{}` round-trip: objects lose duplicate
keys (last wins) and key order (marshalled sorted), recursively. -/
def canon : Json → Json
  | Json.null => Json.null
  | Json.bool b => Json.bool b
  | Json.num n => Json.num n
  | Json.str s => Json.str s
  | Json.arr xs => Json.arr (canonList xs)
  | Json.obj ms => Json.obj (sortMembers (dedupMembers (canonMembers ms)))

def canonList : List Json → List Json
  | [] => []
  | x :: xs => canon x :: canonList xs

def canonMembers : List (String × Json) → List (String × Json)
  | [] => []
  | (k, v) :: ms => (k, canon v) :: canonMembers ms

end

mutual

/-- `fmt.Sprintf` with the `v` verb on an already-canonical decoded
JSON value (maps print their keys sorted, which `canon` established). -/
def goVPrint : Json → String
  | Json.null => "<nil>"
  | Json.bool true => "true"
  | Json.bool false => "false"
  | Json.num n => toString n
  | Json.str s => s
  | Json.arr xs => "[" ++ goVPrintList xs ++ "]"
  | Json.obj ms => "map[" ++ goVPrintMembers ms ++ "]"

def goVPrintList : List Json → String
  | [] => ""
  | [x] => goVPrint x
  | x :: y :: xs => goVPrint x ++ " " ++ goVPrintList (y :: xs)

def goVPrintMembers : List (String × Json) → String
  | [] => ""
  | [(k, v)] => k ++ ":" ++ goVPrint v
  | (k, v) :: m :: ms => k ++ ":" ++ goVPrint v ++ " " ++ goVPrintMembers (m :: ms)

end

/-- `fmt.Sprintf` with the `v` verb on an `interface{}` decoded from
JSON (api_client.go renders every file-path entry this way; a JSON
string prints as itself, unquoted). -/
def goVString (j : Json) : String := goVPrint (canon j)

/-! ### Constants and the MIME sniffer (the constants/DetectMime file) -/

/-- The reserved argument key for upload paths. -/
def UploadedFilePathsFieldName : String := "_uploaded_file_paths"

/-- Field name of the JSON payload part (the constants file spells it
FormDataKeyJSON; api_client.go refers to it as FormDataKeyJson — both
denote this value). -/
def FormDataKeyJson : String := "json"

/-- Field name of each file part. -/
def FormDataKeyFile : String := "file"

/-- The schema description injected for the reserved file-paths field. -/
def UploadedFilePathsSchema : Json :=
  Json.obj
    [("type", Json.str "array"),
     ("description", Json.str "List of file paths to be uploaded"),
     ("items",
      Json.obj
        [("type", Json.str "string"),
         ("description", Json.str "Path to the uploaded file")])]

/-- The local filesystem: paths mapped to file contents (byte lists). -/
def FS : Type := List (String × List Nat)

/-- `os.Open` + full read, abstracted: `none` when the file cannot be
opened. -/
def fsLookup (fs : FS) (path : String) : Option (List Nat) :=
  (List.lookup path fs : Option (List Nat))

/-- The 512-byte buffer after `file.Read`: the first `min 512 size`
bytes of the file, the remainder still the zero initialization (the
code sniffs the whole buffer, not just the bytes read). -/
def pad512 (content : List Nat) : List Nat :=
  content.take 512 ++ List.replicate (512 - content.length) 0

/-- `DetectMime` (constants/DetectMime file), parameterized by `sniff`
standing for `http.DetectContentType` (a pure function of the sniffed
bytes).  `file.Read` on a regular file returns the byte count and a nil
error when the file is nonempty, and `(0, io.EOF)` when it is empty; the
code treats the `io.EOF` as a failure.  The handle is closed by `defer`
on every path. -/
def DetectMime (sniff : List Nat → String) (fs : FS) (filePath : String) :
    Except Err String :=
  match fsLookup fs filePath with
  | none => Except.error (Err.mimeOpen filePath)
  | some content =>
      if content.length = 0 then Except.error Err.mimeRead
      else Except.ok (sniff (pad512 content))

/-! ### Request building (api_client.go, ExecuteToolRequest) -/

/-- `filepath.Base` on a Unix path: strip trailing separators, keep the
last element; "." for the empty path, "/" when only separators remain. -/
def baseName (path : String) : String :=
  if path = "" then "."
  else
    let rev := path.data.reverse.dropWhile fun c => c = '/'
    let base := rev.takeWhile fun c => c ≠ '/'
    if base = [] then "/" else String.mk base.reverse

/-- The `strings.NewReplacer` used on filenames: backslash and double
quote are backslash-escaped, character by character. -/
def escapeQuotes (s : String) : String :=
  String.join (s.data.map fun c =>
    if c = '\\' then "\\\\"
    else if c = '"' then "\\\""
    else String.mk [c])

/-- One part of a multipart body.  The JSON payload part carries the
arguments document (its bytes on the wire are that document's
serialization); a file part carries field name, escaped filename,
sniffed content type and the file's bytes (`io.Copy` of a fresh
handle). -/
inductive Part where
  | field (name : String) (payload : Json)
  | filePart (name filename mimeType : String) (content : List Nat)
deriving DecidableEq

/-- Request body: raw JSON or finalized multipart parts in write
order. -/
inductive RequestBody where
  | jsonBody (payload : Json)
  | multipartBody (parts : List Part)
deriving DecidableEq

/-- The Content-Type header (the multipart boundary string is not
modelled). -/
inductive ReqContentType where
  | applicationJson
  | multipartFormData
deriving DecidableEq

/-- The outbound POST built by `ExecuteToolRequest` (the Accept and
X-API-KEY headers are constant and not modelled). -/
structure HttpRequest where
  endpoint : String
  contentType : ReqContentType
  body : RequestBody
deriving DecidableEq

/-- `json.Unmarshal(input, &inputData)` for
`inputData map[string]interface{}`: an object gives its members (the
map is queried with `mapLookupLast`), the literal `null` leaves the nil
map (no entries), anything else is an unmarshal error. -/
def parseInputMap : Json → Option (List (String × Json))
  | Json.obj ms => some ms
  | Json.null => some []
  | _ => none

/-- The file-attachment loop of `ExecuteToolRequest`: for each entry of
the reserved array, open the file (failure aborts the whole call naming
the path), detect its MIME type (failure aborts likewise), and emit a
part whose filename is the escaped base name and whose content is the
file's bytes. -/
def attachFiles (sniff : List Nat → String) (fs : FS) :
    List Json → Except Err (List Part)
  | [] => Except.ok []
  | fpIntf :: rest =>
      let fp := goVString fpIntf
      match fsLookup fs fp with
      | none => Except.error (Err.ioOpen fp)
      | some content =>
          match DetectMime sniff fs fp with
          | Except.error e => Except.error (Err.mimeDetect fp e)
          | Except.ok mimeType =>
              match attachFiles sniff fs rest with
              | Except.error e => Except.error e
              | Except.ok parts =>
                  Except.ok
                    (Part.filePart FormDataKeyFile
                      (escapeQuotes (baseName fp)) mimeType content :: parts)

/-- The endpoint `ExecuteToolRequest` selects: the form endpoint for an
upload-capable tool, the JSON endpoint otherwise. -/
def selectedEndpoint (tool : Tool) : String :=
  if tool.AllowUploadFiles then tool.InvokeEndpoints.Form
  else tool.InvokeEndpoints.Json

/-- The request-building half of `ExecuteToolRequest` (api_client.go,
up to `http.NewRequest`): endpoint selection by upload capability,
empty-endpoint failure, and the JSON/multipart body.  In the multipart
case the JSON payload field is written first; the reserved key's value
contributes file parts only when its type assertion to a list succeeds
(absent key, `null`, or a non-array value mean zero file parts). -/
def buildToolRequest (sniff : List Nat → String) (fs : FS)
    (tool : Tool) (input : Json) : Except Err HttpRequest :=
  let endpoint := selectedEndpoint tool
  if endpoint = "" then Except.error (Err.noEndpoint tool.Name)
  else if tool.AllowUploadFiles then
    match parseInputMap input with
    | none => Except.error Err.parseUploadPaths
    | some inputData =>
        match mapLookupLast inputData UploadedFilePathsFieldName with
        | some (Json.arr filePathsIntf) =>
            match attachFiles sniff fs filePathsIntf with
            | Except.error e => Except.error e
            | Except.ok fileParts =>
                Except.ok
                  ⟨endpoint, ReqContentType.multipartFormData,
                   RequestBody.multipartBody
                     (Part.field FormDataKeyJson input :: fileParts)⟩
        | _ =>
            Except.ok
              ⟨endpoint, ReqContentType.multipartFormData,
               RequestBody.multipartBody [Part.field FormDataKeyJson input]⟩
  else
    Except.ok ⟨endpoint, ReqContentType.applicationJson,
               RequestBody.jsonBody input⟩

/-- `ExecuteToolRequest` (api_client.go): build the request, send it
(`net` models the transport: the response obtained for the request),
then handle the response.  No request reaches the network when building
already failed. -/
def ExecuteToolRequest (sniff : List Nat → String) (fs : FS)
    (net : HttpRequest → HttpResponse) (tool : Tool) (input : Json) :
    Except Err Body :=
  match buildToolRequest sniff fs tool input with
  | Except.error e => Except.error e
  | Except.ok req => handleInvokeResponse (net req)

/-! ### Manifest decoding and FetchToolsetManifest (api_client.go) -/

/-- Decode the nested `invoke_endpoints` struct field (merging across
repeated members, `null` a no-op). -/
def goEndpointsField (ms : List (String × Json)) (tag : String) :
    Option ToolInvokeEndpoints :=
  (fieldMatches ms tag).foldlM
    (fun acc v =>
      match v with
      | Json.null => some acc
      | Json.obj ns => do
          let j ← goStringFieldFrom acc.Json ns "json"
          let f ← goStringFieldFrom acc.Form ns "form"
          pure (⟨j, f⟩ : ToolInvokeEndpoints)
      | _ => none)
    (⟨"", ""⟩ : ToolInvokeEndpoints)

/-- Decode one element of the manifest's `tools` array (a freshly
zeroed struct slot; a `null` element leaves it zeroed). -/
def decodeToolElem : Json → Option Tool
  | Json.null => some ⟨"", "", none, false, ⟨"", ""⟩⟩
  | Json.obj ms => do
      let name ← goStringField ms "name"
      let descr ← goStringField ms "description"
      let upload ← goBoolField ms "allow_upload_files"
      let eps ← goEndpointsField ms "invoke_endpoints"
      pure ⟨name, descr, goRawField ms "input_schema", upload, eps⟩
  | _ => none

/-- Decode the `tools` slice field: a JSON array resets and refills the
slice, `null` is a no-op, anything else is a type error. -/
def goToolsFieldFrom (init : List Tool) (ms : List (String × Json))
    (tag : String) : Option (List Tool) :=
  (fieldMatches ms tag).foldlM
    (fun acc v =>
      match v with
      | Json.null => some acc
      | Json.arr xs => xs.mapM decodeToolElem
      | _ => none)
    init

/-- The nested `data` struct of the manifest response. -/
structure ManifestData where
  Namespace : String
  Name : String
  Generation : Int
  Tools : List Tool
deriving DecidableEq

/-- Decode the manifest envelope's `data` struct field. -/
def goDataField (ms : List (String × Json)) (tag : String) :
    Option ManifestData :=
  (fieldMatches ms tag).foldlM
    (fun acc v =>
      match v with
      | Json.null => some acc
      | Json.obj ns => do
          let nsp ← goStringFieldFrom acc.Namespace ns "namespace"
          let nm ← goStringFieldFrom acc.Name ns "name"
          let gen ← goIntFieldFrom acc.Generation ns "generation"
          let tools ← goToolsFieldFrom acc.Tools ns "tools"
          pure (⟨nsp, nm, gen, tools⟩ : ManifestData)
      | _ => none)
    (⟨"", "", 0, []⟩ : ManifestData)

/-- The manifest response envelope struct of `FetchToolsetManifest`. -/
structure ManifestEnvelope where
  IsSuccess : Bool
  Data : ManifestData
  Error : Option String
  ErrorCode : Option String
deriving DecidableEq

/-- `json.Unmarshal(body, &response)` for the manifest envelope. -/
def decodeManifestEnvelope : Body → Option ManifestEnvelope
  | Body.text _ => none
  | Body.json Json.null => some ⟨false, ⟨"", "", 0, []⟩, none, none⟩
  | Body.json (Json.obj ms) => do
      let isSuccess ← goBoolField ms "isSuccess"
      let data ← goDataField ms "data"
      let err ← goStringPtrField ms "error"
      let errCode ← goStringPtrField ms "errorCode"
      pure ⟨isSuccess, data, err, errCode⟩
  | Body.json _ => none

/-- `FetchToolsetManifest` (api_client.go): the GET itself is abstracted
into the response `resp`; then status check, envelope unmarshal,
success-flag check, and the field-by-field conversion into
`ToolsetManifest` (which copies every tool record unchanged — no
validation of names or endpoints happens here). -/
def FetchToolsetManifest (resp : HttpResponse) :
    Except Err ToolsetManifest :=
  if resp.status ≠ 200 then
    Except.error (Err.transport resp.status resp.body)
  else
    match decodeManifestEnvelope resp.body with
    | none => Except.error Err.unmarshalManifest
    | some env =>
        if !env.IsSuccess then
          Except.error (Err.remote (env.Error.getD "unknown error"))
        else
          Except.ok ⟨env.Data.Namespace, env.Data.Name,
                     env.Data.Generation, env.Data.Tools⟩

/-! ### Diagnostic rendering (error strings of the Go code) -/

mutual

/-- Compact JSON serialization, used when a raw body appears inside an
error message (the Go standard library's full escaping of control and
HTML characters is not modelled beyond quote/backslash). -/
def renderJson : Json → String
  | Json.null => "null"
  | Json.bool true => "true"
  | Json.bool false => "false"
  | Json.num n => toString n
  | Json.str s => "\"" ++ escapeQuotes s ++ "\""
  | Json.arr xs => "[" ++ renderJsonList xs ++ "]"
  | Json.obj ms => "\x7b" ++ renderJsonMembers ms ++ "\x7d"

def renderJsonList : List Json → String
  | [] => ""
  | [x] => renderJson x
  | x :: y :: xs => renderJson x ++ "," ++ renderJsonList (y :: xs)

def renderJsonMembers : List (String × Json) → String
  | [] => ""
  | [(k, v)] => "\"" ++ escapeQuotes k ++ "\":" ++ renderJson v
  | (k, v) :: m :: ms =>
      "\"" ++ escapeQuotes k ++ "\":" ++ renderJson v ++ ","
        ++ renderJsonMembers (m :: ms)

end

/-- The raw bytes of a body, as interpolated into error messages. -/
def bodyString : Body → String
  | Body.json j => renderJson j
  | Body.text s => s

/-- The error message a value of `Err` renders to, following the
`fmt.Errorf` format strings of the source (texts of wrapped standard
library errors are abbreviated to a fixed phrase). -/
def errMsg : Err → String
  | Err.noEndpoint n => "tool " ++ n ++ " has no invoke endpoint"
  | Err.parseUploadPaths =>
      "failed to parse uploaded_file_paths: json unmarshal error"
  | Err.ioOpen p =>
      "failed to open file " ++ p ++ ": open " ++ p
        ++ ": no such file or directory"
  | Err.mimeOpen p =>
      "failed to open file " ++ p ++ ": open " ++ p
        ++ ": no such file or directory"
  | Err.mimeRead => "failed to read file: EOF"
  | Err.mimeDetect p e =>
      "failed to detect MIME type for file " ++ p ++ ": " ++ errMsg e
  | Err.transport st b =>
      "unexpected status code: " ++ toString st ++ ", body: "
        ++ bodyString b
  | Err.unmarshalManifest =>
      "failed to unmarshal response: json unmarshal error"
  | Err.remote m => "API error: " ++ m
  | Err.schemaParse n =>
      "failed to parse input schema for tool " ++ n
        ++ ": json unmarshal error"
  | Err.fetchManifestFailed e =>
      "failed to fetch toolset manifest: " ++ errMsg e
  | Err.registerFailed e =>
      "failed to register tool handlers: " ++ errMsg e

/-! ### Tool registration (server.go, registerToolHandlers) -/

/-- An MCP tool definition as registered with the external protocol
library: name, description, and the re-marshalled input schema. -/
structure McpTool where
  Name : String
  Description : String
  RawInputSchema : Json
deriving DecidableEq

/-- `json.Unmarshal(localTool.InputSchema, &schema)` for
`schema map[string]interface{}`.  A nil RawMessage (`none`: the
manifest had no `input_schema` key) is an unmarshal error ("unexpected
end of JSON input"); the literal `null` gives the nil map (inner
`none`); an object gives the map; any other document is a type error. -/
def decodeSchemaMap : Option Json → Option (Option (List (String × Json)))
  | none => none
  | some Json.null => some none
  | some (Json.obj ms) => some (some (dedupMembers (canonMembers ms)))
  | some _ => none

/-- The per-tool body of the registration loop (server.go): parse the
declared schema, default a missing top-level `type` to "object", for
upload-capable tools ensure `properties` exists and inject the reserved
file-paths field when `properties` is an object (the type assertion
silently skips the injection otherwise), then marshal the map back
(`canon`: map marshalling sorts keys; a nil map marshals to `null`). -/
def registerTool (tool : Tool) : Except Err McpTool :=
  match decodeSchemaMap tool.InputSchema with
  | none => Except.error (Err.schemaParse tool.Name)
  | some none => Except.ok ⟨tool.Name, tool.Description, Json.null⟩
  | some (some m0) =>
      let m1 :=
        if mapHasKey m0 "type" then m0
        else mapInsert m0 "type" (Json.str "object")
      let m2 :=
        if tool.AllowUploadFiles then
          let mp :=
            if mapHasKey m1 "properties" then m1
            else mapInsert m1 "properties" (Json.obj [])
          match mapLookupLast mp "properties" with
          | some (Json.obj props) =>
              mapInsert mp "properties"
                (Json.obj
                  (mapInsert props UploadedFilePathsFieldName
                    UploadedFilePathsSchema))
          | _ => mp
        else m1
      Except.ok ⟨tool.Name, tool.Description, canon (Json.obj m2)⟩

/-- `registerToolHandlers` (server.go): register every manifest tool in
order; the first schema failure aborts the whole registration (and with
it server construction).  The result is the sequence of `AddTool`
registrations. -/
def registerToolHandlers : List Tool → Except Err (List McpTool)
  | [] => Except.ok []
  | t :: ts =>
      match registerTool t with
      | Except.error e => Except.error e
      | Except.ok mt =>
          match registerToolHandlers ts with
          | Except.error e => Except.error e
          | Except.ok mts => Except.ok (mt :: mts)

/-- `NewServer` (server.go): fetch the manifest (the GET abstracted into
`manifestResp`), store its tools, and register the handlers; each
failure is wrapped and construction fails before any call can be
served.  On success the stored tools and the registered MCP tool
definitions are returned. -/
def NewServer (manifestResp : HttpResponse) :
    Except Err (ToolsetManifest × List McpTool) :=
  match FetchToolsetManifest manifestResp with
  | Except.error e => Except.error (Err.fetchManifestFailed e)
  | Except.ok manifest =>
      match registerToolHandlers manifest.Tools with
      | Except.error e => Except.error (Err.registerFailed e)
      | Except.ok mcpTools => Except.ok (manifest, mcpTools)

/-! ### The per-tool call handler (server.go) -/

/-- The result the handler hands to the external protocol layer:
`mcp.NewToolResultError` sets the error form with a message,
`mcp.NewToolResultText` the text form. -/
structure CallToolResult where
  isError : Bool
  text : String
deriving DecidableEq

/-- The per-tool handler closure (server.go): marshal the call's
arguments (a value decoded from protocol JSON always marshals, so the
first error branch of the source cannot fire in the model), execute the
tool request, re-parse the returned bytes as JSON and re-serialize them
indented (`canon`: the `interface{}` round-trip; the indentation
whitespace itself is not modelled).  Every failure becomes an error
RESULT with a nil transport error: the second component of the pair —
the Go handler's `error` return — is `none` on every path. -/
def toolHandler (sniff : List Nat → String) (fs : FS)
    (net : HttpRequest → HttpResponse) (tool : Tool) (args : Json) :
    CallToolResult × Option Err :=
  match ExecuteToolRequest sniff fs net tool args with
  | Except.error e =>
      (⟨true, "Tool execution failed: " ++ errMsg e⟩, none)
  | Except.ok (Body.text _) =>
      (⟨true, "Failed to parse tool response: json unmarshal error"⟩, none)
  | Except.ok (Body.json j) =>
      (⟨false, renderJson (canon j)⟩, none)

/-! ### Spec-side definitions for the schema-augmentation refinement -/

/-- Whether a tool's declared schema is a document the registration
loop can decode (a JSON object or the literal `null`); manifests whose
tools all satisfy this are the ones registration accepts. -/
def schemaDecodes (tool : Tool) : Bool :=
  match tool.InputSchema with
  | some Json.null => true
  | some (Json.obj _) => true
  | _ => false

/-- Whether a JSON document is an object with a top-level `type`
member. -/
def hasTopLevelType : Json → Bool
  | Json.obj ms => mapHasKey ms "type"
  | _ => false

/-- Modelled from the spec (§4.4 schema augmentation): "if the declared
schema lacks a top-level `type`, default it to `object`.  If the tool is
upload-capable, ensure a `properties` object exists and inject a
description for the reserved file-paths field."  Stated on a schema
already in Go-map form; when the (ensured) `properties` member is not
an object there is nothing to inject into and the map is left as is. -/
def specAugmentSchema (uploadCapable : Bool)
    (ms : List (String × Json)) : List (String × Json) :=
  let withType :=
    if mapHasKey ms "type" then ms
    else mapInsert ms "type" (Json.str "object")
  if uploadCapable then
    let withProps :=
      if mapHasKey withType "properties" then withType
      else mapInsert withType "properties" (Json.obj [])
    match mapLookupLast withProps "properties" with
    | some (Json.obj props) =>
        mapInsert withProps "properties"
          (Json.obj
            (mapInsert props UploadedFilePathsFieldName
              UploadedFilePathsSchema))
    | _ => withProps
  else withType

/-- The tool registration the spec's augmentation rule predicts: name
and description pass through; an object schema is exposed in marshalled
(canonical map) form after `specAugmentSchema`; a literal-null schema
round-trips through the nil map to `null`. -/
def exposeToolSpec (tool : Tool) : McpTool :=
  ⟨tool.Name, tool.Description,
   match tool.InputSchema with
   | some (Json.obj ms) =>
       canon (Json.obj
         (specAugmentSchema tool.AllowUploadFiles
           (dedupMembers (canonMembers ms))))
   | _ => Json.null⟩

/-! ## Theorems -/

/-- When request building succeeds, `ExecuteToolRequest` is exactly the
response handling of the response the network returns for that
request. -/
theorem ExecuteToolRequest_ok_req (sniff : List Nat → String) (fs : FS)
    (net : HttpRequest → HttpResponse) (tool : Tool) (input : Json)
    (req : HttpRequest)
    (h : buildToolRequest sniff fs tool input = Except.ok req) :
    ExecuteToolRequest sniff fs net tool input
      = handleInvokeResponse (net req) := by
  unfold ExecuteToolRequest
  rw [h]

/-- C2: for every invocation whose HTTP response has status 200 and
whose body cannot be decoded as the remote envelope,
`ExecuteToolRequest` returns the entire raw response body verbatim as a
successful result; envelope decode failure is never by itself an
error. -/
theorem C2_envelope_decode_failure_raw_passthrough
    (sniff : List Nat → String) (fs : FS)
    (net : HttpRequest → HttpResponse) (tool : Tool) (input : Json)
    (req : HttpRequest)
    (hreq : buildToolRequest sniff fs tool input = Except.ok req)
    (hstatus : (net req).status = 200)
    (hdec : decodeInvokeEnvelope (net req).body = none) :
    ExecuteToolRequest sniff fs net tool input
      = Except.ok (net req).body := by
  rw [ExecuteToolRequest_ok_req sniff fs net tool input req hreq]
  unfold handleInvokeResponse
  rw [hstatus, hdec]
  simp

/-- Witness for C2: a stub endpoint answering 200 with the raw body
"plain text" (not JSON) yields exactly that raw body as a successful
result. -/
theorem C2_witness :
    ExecuteToolRequest (fun _ => "application/octet-stream") []
      (fun _ => ⟨200, Body.text "plain text"⟩)
      ⟨"t", "", none, false, ⟨"http://e", ""⟩⟩ Json.null
      = Except.ok (Body.text "plain text") :=
  C2_envelope_decode_failure_raw_passthrough
    (fun _ => "application/octet-stream") []
    (fun _ => ⟨200, Body.text "plain text"⟩)
    ⟨"t", "", none, false, ⟨"http://e", ""⟩⟩ Json.null
    ⟨"http://e", ReqContentType.applicationJson, RequestBody.jsonBody Json.null⟩
    (by decide) (by decide) (by decide)

/-- C3: for every invocation whose HTTP response has a status code
other than 200, `ExecuteToolRequest` fails with the transport error
carrying the status and raw body, regardless of the body's content;
the status check strictly precedes envelope parsing. -/
theorem C3_non200_transport_error
    (sniff : List Nat → String) (fs : FS)
    (net : HttpRequest → HttpResponse) (tool : Tool) (input : Json)
    (req : HttpRequest)
    (hreq : buildToolRequest sniff fs tool input = Except.ok req)
    (hstatus : (net req).status ≠ 200) :
    ExecuteToolRequest sniff fs net tool input
      = Except.error (Err.transport (net req).status (net req).body) := by
  rw [ExecuteToolRequest_ok_req sniff fs net tool input req hreq]
  unfold handleInvokeResponse
  simp [hstatus]

/-- Witness for C3: a 500 response whose body even parses as a
successful envelope is still reported as a transport error carrying
status and body. -/
theorem C3_witness :
    ExecuteToolRequest (fun _ => "application/octet-stream") []
      (fun _ => ⟨500, Body.json (Json.obj
        [("isSuccess", Json.bool true), ("data", Json.num 1)])⟩)
      ⟨"t", "", none, false, ⟨"http://e", ""⟩⟩ Json.null
      = Except.error (Err.transport 500 (Body.json (Json.obj
          [("isSuccess", Json.bool true), ("data", Json.num 1)]))) :=
  C3_non200_transport_error
    (fun _ => "application/octet-stream") []
    (fun _ => ⟨500, Body.json (Json.obj
      [("isSuccess", Json.bool true), ("data", Json.num 1)])⟩)
    ⟨"t", "", none, false, ⟨"http://e", ""⟩⟩ Json.null
    ⟨"http://e", ReqContentType.applicationJson, RequestBody.jsonBody Json.null⟩
    (by decide) (by decide)

/-- C9: for every 200 response whose body the envelope struct accepts
with the success flag absent or false, `ExecuteToolRequest` returns a
remote error with the envelope's error string, defaulting to "unknown
error"; the raw-body passthrough applies only to bodies that fail
envelope decoding altogether. -/
theorem C9_success_flag_false_remote_error
    (sniff : List Nat → String) (fs : FS)
    (net : HttpRequest → HttpResponse) (tool : Tool) (input : Json)
    (req : HttpRequest) (env : InvokeEnvelope)
    (hreq : buildToolRequest sniff fs tool input = Except.ok req)
    (hstatus : (net req).status = 200)
    (hdec : decodeInvokeEnvelope (net req).body = some env)
    (hfail : env.IsSuccess = false) :
    ExecuteToolRequest sniff fs net tool input
      = Except.error (Err.remote (env.Error.getD "unknown error")) := by
  rw [ExecuteToolRequest_ok_req sniff fs net tool input req hreq]
  unfold handleInvokeResponse
  rw [hstatus, hdec]
  simp [hfail]

/-- Witness for C9: the body `{}` decodes as an envelope with no
success flag, and is reported as the remote error "unknown error", not
passed through raw. -/
theorem C9_witness :
    ExecuteToolRequest (fun _ => "application/octet-stream") []
      (fun _ => ⟨200, Body.json (Json.obj [])⟩)
      ⟨"t", "", none, false, ⟨"http://e", ""⟩⟩ Json.null
      = Except.error (Err.remote "unknown error") :=
  C9_success_flag_false_remote_error
    (fun _ => "application/octet-stream") []
    (fun _ => ⟨200, Body.json (Json.obj [])⟩)
    ⟨"t", "", none, false, ⟨"http://e", ""⟩⟩ Json.null
    ⟨"http://e", ReqContentType.applicationJson, RequestBody.jsonBody Json.null⟩
    ⟨false, none, none, none⟩
    (by decide) (by decide) (by decide) (by decide)

/-- Counterexample to C4: a 200 body `{"isSuccess":true,"data":null}`
has its `data` key present with value `null` (a `json.RawMessage`
receives the literal `null` and is non-nil), so `ExecuteToolRequest`
returns the literal JSON `null` — not, as the claim states for a null
`data`, the raw response body verbatim. -/
theorem C4_counterexample :
    ExecuteToolRequest (fun _ => "application/octet-stream") []
      (fun _ => ⟨200, Body.json (Json.obj
        [("isSuccess", Json.bool true), ("data", Json.null)])⟩)
      ⟨"t", "", none, false, ⟨"http://e", ""⟩⟩ Json.null
      = Except.ok (Body.json Json.null)
    ∧ Body.json Json.null
        ≠ Body.json (Json.obj
            [("isSuccess", Json.bool true), ("data", Json.null)]) :=
  ⟨by decide, by decide⟩

/-- C4 as amended: for a 200 response parsing as a successful
envelope, if the `data` KEY is present, `ExecuteToolRequest` returns
exactly its value (a literal `null` value is returned as the JSON
`null`); only when the key is absent is the raw response body returned
verbatim. -/
theorem C4_amended_data_selection
    (sniff : List Nat → String) (fs : FS)
    (net : HttpRequest → HttpResponse) (tool : Tool) (input : Json)
    (req : HttpRequest) (env : InvokeEnvelope)
    (hreq : buildToolRequest sniff fs tool input = Except.ok req)
    (hstatus : (net req).status = 200)
    (hdec : decodeInvokeEnvelope (net req).body = some env)
    (hsucc : env.IsSuccess = true) :
    (∀ d, env.Data = some d →
      ExecuteToolRequest sniff fs net tool input
        = Except.ok (Body.json d))
    ∧ (env.Data = none →
      ExecuteToolRequest sniff fs net tool input
        = Except.ok (net req).body) := by
  constructor
  · intro d hd
    rw [ExecuteToolRequest_ok_req sniff fs net tool input req hreq]
    unfold handleInvokeResponse
    rw [hstatus, hdec]
    simp [hsucc, hd]
  · intro hd
    rw [ExecuteToolRequest_ok_req sniff fs net tool input req hreq]
    unfold handleInvokeResponse
    rw [hstatus, hdec]
    simp [hsucc, hd]

/-- Witness for the amended C4: the round trip — a JSON-mode tool
invoked against a stub echoing `{"isSuccess":true,"data":{"a":1}}`
yields a result deep-equal to `{"a":1}`. -/
theorem C4_amended_witness :
    ExecuteToolRequest (fun _ => "application/octet-stream") []
      (fun _ => ⟨200, Body.json (Json.obj
        [("isSuccess", Json.bool true),
         ("data", Json.obj [("a", Json.num 1)])])⟩)
      ⟨"t", "", none, false, ⟨"http://e", ""⟩⟩
      (Json.obj [("a", Json.num 1)])
      = Except.ok (Body.json (Json.obj [("a", Json.num 1)])) :=
  (C4_amended_data_selection
    (fun _ => "application/octet-stream") []
    (fun _ => ⟨200, Body.json (Json.obj
      [("isSuccess", Json.bool true),
       ("data", Json.obj [("a", Json.num 1)])])⟩)
    ⟨"t", "", none, false, ⟨"http://e", ""⟩⟩
    (Json.obj [("a", Json.num 1)])
    ⟨"http://e", ReqContentType.applicationJson,
     RequestBody.jsonBody (Json.obj [("a", Json.num 1)])⟩
    ⟨true, some (Json.obj [("a", Json.num 1)]), none, none⟩
    (by decide) (by decide) (by decide) (by decide)).1
    (Json.obj [("a", Json.num 1)]) (by decide)

/-- C10: for an upload-capable tool the serialized arguments must
unmarshal into a string-keyed map: arguments that are valid JSON but
not an object (and not `null`) fail the invocation before any HTTP
request is sent (the conclusion holds for every network), whereas the
identical arguments for a non-upload tool are placed in the request
body verbatim. -/
theorem C10_upload_requires_object_arguments
    (sniff : List Nat → String) (fs : FS)
    (net : HttpRequest → HttpResponse) (tool : Tool) (input : Json)
    (hobj : ∀ ms, input ≠ Json.obj ms) (hnull : input ≠ Json.null) :
    (tool.AllowUploadFiles = true → tool.InvokeEndpoints.Form ≠ "" →
      ExecuteToolRequest sniff fs net tool input
        = Except.error Err.parseUploadPaths)
    ∧ (tool.AllowUploadFiles = false → tool.InvokeEndpoints.Json ≠ "" →
      buildToolRequest sniff fs tool input
        = Except.ok ⟨tool.InvokeEndpoints.Json,
            ReqContentType.applicationJson, RequestBody.jsonBody input⟩) := by
  have hparse : parseInputMap input = none := by
    cases input with
    | null => exact absurd rfl hnull
    | bool b => rfl
    | num n => rfl
    | str s => rfl
    | arr xs => rfl
    | obj ms => exact absurd rfl (hobj ms)
  constructor
  · intro hup hform
    unfold ExecuteToolRequest buildToolRequest
    simp [selectedEndpoint, hup, hform, hparse]
  · intro hup hjson
    unfold buildToolRequest
    simp [selectedEndpoint, hup, hjson]

/-- Witness for C10: the JSON array `[1]` as arguments makes an
upload-capable tool fail before any request, while a plain tool sends
it verbatim. -/
theorem C10_witness :
    ExecuteToolRequest (fun _ => "application/octet-stream") []
      (fun _ => ⟨200, Body.json Json.null⟩)
      ⟨"t", "", none, true, ⟨"", "http://f"⟩⟩ (Json.arr [Json.num 1])
      = Except.error Err.parseUploadPaths
    ∧ buildToolRequest (fun _ => "application/octet-stream") []
      ⟨"u", "", none, false, ⟨"http://j", ""⟩⟩ (Json.arr [Json.num 1])
      = Except.ok ⟨"http://j", ReqContentType.applicationJson,
          RequestBody.jsonBody (Json.arr [Json.num 1])⟩ :=
  ⟨(C10_upload_requires_object_arguments
      (fun _ => "application/octet-stream") []
      (fun _ => ⟨200, Body.json Json.null⟩)
      ⟨"t", "", none, true, ⟨"", "http://f"⟩⟩ (Json.arr [Json.num 1])
      (fun _ h => Json.noConfusion h) (fun h => Json.noConfusion h)).1
      rfl (by decide),
   (C10_upload_requires_object_arguments
      (fun _ => "application/octet-stream") []
      (fun _ => ⟨200, Body.json Json.null⟩)
      ⟨"u", "", none, false, ⟨"http://j", ""⟩⟩ (Json.arr [Json.num 1])
      (fun _ h => Json.noConfusion h) (fun h => Json.noConfusion h)).2
      rfl (by decide)⟩

/-- Counterexample to C1: a 200 manifest response whose single tool
record has no name and no invocation target (and an empty-object
schema) does NOT make server construction fail: `NewServer` succeeds
and the registry contains a tool whose selected endpoint is empty, so
it can never be invoked. -/
theorem C1_counterexample :
    NewServer ⟨200, Body.json (Json.obj
      [("isSuccess", Json.bool true),
       ("data", Json.obj
         [("tools", Json.arr
           [Json.obj [("input_schema", Json.obj [])]])])])⟩
      = Except.ok
          (⟨"", "", 0, [⟨"", "", some (Json.obj []), false, ⟨"", ""⟩⟩]⟩,
           [⟨"", "", Json.obj [("type", Json.str "object")]⟩])
    ∧ selectedEndpoint ⟨"", "", some (Json.obj []), false, ⟨"", ""⟩⟩ = "" :=
  ⟨by decide, by decide⟩

/-- C1 as amended: construction performs no per-tool validation of
name or invocation target (such a tool is registered, as the
counterexample shows); instead, every call to a tool whose selected
invocation endpoint is empty fails at call time with a no-endpoint
error, before any HTTP request is sent (the conclusion holds for every
network). -/
theorem C1_amended_no_endpoint_fails_at_call_time
    (sniff : List Nat → String) (fs : FS)
    (net : HttpRequest → HttpResponse) (tool : Tool) (input : Json)
    (h : selectedEndpoint tool = "") :
    ExecuteToolRequest sniff fs net tool input
      = Except.error (Err.noEndpoint tool.Name) := by
  unfold ExecuteToolRequest buildToolRequest
  simp [h]

/-- Witness for the amended C1: the endpoint-less tool the
counterexample's manifest registered fails every invocation with the
no-endpoint error. -/
theorem C1_amended_witness :
    ExecuteToolRequest (fun _ => "application/octet-stream") []
      (fun _ => ⟨200, Body.json Json.null⟩)
      ⟨"", "", some (Json.obj []), false, ⟨"", ""⟩⟩ Json.null
      = Except.error (Err.noEndpoint "") :=
  C1_amended_no_endpoint_fails_at_call_time
    (fun _ => "application/octet-stream") []
    (fun _ => ⟨200, Body.json Json.null⟩)
    ⟨"", "", some (Json.obj []), false, ⟨"", ""⟩⟩ Json.null
    (by decide)

set_option maxRecDepth 4096 in
/-- C8, evaluating the code at the failing inputs: an empty file can be
opened (it is present in the filesystem) yet `DetectMime` fails,
because the single `file.Read` returns `io.EOF`; and for a 1-byte file
the sniffer receives the whole 512-byte zero-padded buffer, not just
the bytes read. -/
theorem C8_detectmime_read_bug :
    fsLookup [("empty.bin", ([] : List Nat))] "empty.bin" = some []
    ∧ DetectMime (fun _ => "application/octet-stream")
        [("empty.bin", ([] : List Nat))] "empty.bin"
        = Except.error Err.mimeRead
    ∧ DetectMime (fun bytes => if bytes.length = 512 then "is512" else "no")
        [("short.bin", [104])] "short.bin"
        = Except.ok "is512" :=
  ⟨by decide, by decide, by decide⟩

/-- A string with a nonempty prefix is nonempty. -/
theorem append_ne_empty_left (a b : String) (h : a ≠ "") : a ++ b ≠ "" := by
  intro e
  apply h
  have hd : a.data ++ b.data = [] := by
    have hc := congrArg String.data e
    rwa [String.data_append] at hc
  obtain ⟨la⟩ := a
  have hla : la = [] := (List.append_eq_nil.mp hd).1
  subst hla
  rfl

/-- C7: no failure of the invocation path makes the per-tool handler
return a protocol-level fault: the Go `error` component is `none` on
every path, and whenever the result is in error form it carries a
nonempty human-readable message. -/
theorem C7_handler_never_faults
    (sniff : List Nat → String) (fs : FS)
    (net : HttpRequest → HttpResponse) (tool : Tool) (args : Json) :
    (toolHandler sniff fs net tool args).2 = none
    ∧ ((toolHandler sniff fs net tool args).1.isError = true →
       (toolHandler sniff fs net tool args).1.text ≠ "") := by
  cases hE : ExecuteToolRequest sniff fs net tool args with
  | error e =>
      have htool : toolHandler sniff fs net tool args
          = (⟨true, "Tool execution failed: " ++ errMsg e⟩, none) := by
        simp [toolHandler, hE]
      rw [htool]
      exact ⟨rfl, fun _ =>
        append_ne_empty_left "Tool execution failed: " (errMsg e) (by decide)⟩
  | ok body =>
      cases body with
      | text s =>
          have htool : toolHandler sniff fs net tool args
              = (⟨true,
                  "Failed to parse tool response: json unmarshal error"⟩,
                 none) := by
            simp [toolHandler, hE]
          rw [htool]
          exact ⟨rfl, fun _ => by decide⟩
      | json j =>
          have htool : toolHandler sniff fs net tool args
              = (⟨false, renderJson (canon j)⟩, none) := by
            simp [toolHandler, hE]
          rw [htool]
          exact ⟨rfl, fun hc => by simp at hc⟩

/-- Witness for C7: against a stub answering 500 the handler returns a
nil transport error and an error-form result with a nonempty
message. -/
theorem C7_witness :
    (toolHandler (fun _ => "application/octet-stream") []
      (fun _ => ⟨500, Body.json Json.null⟩)
      ⟨"t", "", none, false, ⟨"http://e", ""⟩⟩ Json.null).2 = none
    ∧ (toolHandler (fun _ => "application/octet-stream") []
      (fun _ => ⟨500, Body.json Json.null⟩)
      ⟨"t", "", none, false, ⟨"http://e", ""⟩⟩ Json.null).1.text ≠ "" :=
  ⟨(C7_handler_never_faults (fun _ => "application/octet-stream") []
      (fun _ => ⟨500, Body.json Json.null⟩)
      ⟨"t", "", none, false, ⟨"http://e", ""⟩⟩ Json.null).1,
   (C7_handler_never_faults (fun _ => "application/octet-stream") []
      (fun _ => ⟨500, Body.json Json.null⟩)
      ⟨"t", "", none, false, ⟨"http://e", ""⟩⟩ Json.null).2 (by decide)⟩

/-- When every listed path opens to a nonempty file, the attachment
loop produces one file part per path, in order, with escaped base-name
filenames, the sniffed type of the zero-padded buffer, and the file's
bytes. -/
theorem attachFiles_all_ok (sniff : List Nat → String) (fs : FS) :
    ∀ paths : List String,
    (∀ p ∈ paths, ∃ c, fsLookup fs p = some c ∧ c ≠ []) →
    attachFiles sniff fs (paths.map Json.str)
      = Except.ok (paths.map fun p =>
          Part.filePart FormDataKeyFile (escapeQuotes (baseName p))
            (sniff (pad512 ((fsLookup fs p).getD [])))
            ((fsLookup fs p).getD []))
  | [], _ => rfl
  | p :: rest, h => by
      obtain ⟨c, hc, hcne⟩ := h p (List.mem_cons_self p rest)
      have hrest := attachFiles_all_ok sniff fs rest
        (fun q hq => h q (List.mem_cons_of_mem p hq))
      have hlen : ¬ c.length = 0 := fun h0 => hcne (List.length_eq_zero.mp h0)
      simp only [List.map_cons, attachFiles]
      rw [show goVString (Json.str p) = p from by
        simp [goVString, canon, goVPrint]]
      rw [hc]
      simp only [DetectMime, hc]
      simp [hlen, hrest, hc]

/-- When the first failing path of the list is a file that cannot be
opened, the attachment loop aborts with an open error naming it. -/
theorem attachFiles_first_missing (sniff : List Nat → String) (fs : FS)
    (p : String) (post : List Json) (hp : fsLookup fs p = none) :
    ∀ pre : List String,
    (∀ q ∈ pre, ∃ c, fsLookup fs q = some c ∧ c ≠ []) →
    attachFiles sniff fs (pre.map Json.str ++ Json.str p :: post)
      = Except.error (Err.ioOpen p)
  | [], _ => by
      simp only [List.map_nil, List.nil_append, attachFiles]
      rw [show goVString (Json.str p) = p from by
        simp [goVString, canon, goVPrint]]
      rw [hp]
  | q :: rest, h => by
      obtain ⟨c, hc, hcne⟩ := h q (List.mem_cons_self q rest)
      have hlen : ¬ c.length = 0 := fun h0 => hcne (List.length_eq_zero.mp h0)
      have hrest := attachFiles_first_missing sniff fs p post hp rest
        (fun r hr => h r (List.mem_cons_of_mem q hr))
      simp only [List.map_cons, List.cons_append, attachFiles]
      rw [show goVString (Json.str q) = q from by
        simp [goVString, canon, goVPrint]]
      rw [hc]
      simp only [DetectMime, hc]
      simp [hlen, hrest]

/-- Counterexample to C5: the single listed file CAN be opened (it is
present, with zero bytes), yet the invocation does not produce the
claimed multipart body — it fails, and not with the claimed open
`IOError` either, but with a MIME-detection failure (the empty file's
read returns `io.EOF`). -/
theorem C5_counterexample :
    fsLookup [("f", ([] : List Nat))] "f" = some []
    ∧ ExecuteToolRequest (fun _ => "application/octet-stream")
        [("f", ([] : List Nat))]
        (fun _ => ⟨200, Body.json Json.null⟩)
        ⟨"t", "", none, true, ⟨"", "http://f"⟩⟩
        (Json.obj [("_uploaded_file_paths", Json.arr [Json.str "f"])])
        = Except.error (Err.mimeDetect "f" Err.mimeRead) :=
  ⟨by decide, by decide⟩

/-- C5 as amended: for an upload-capable invocation listing N paths,
when every listed file opens and is nonempty (so MIME sniffing
succeeds), the multipart body is exactly the JSON payload field
followed by one file part per path with escaped base-name filename and
the file's bytes; and when the first failing path in order is a file
that cannot be opened, the invocation fails with an open error naming
that path, independently of the network (no request is sent). -/
theorem C5_amended_multipart_shape
    (sniff : List Nat → String) (fs : FS)
    (net : HttpRequest → HttpResponse) (tool : Tool) (input : Json)
    (ms : List (String × Json)) (paths : List String)
    (hupload : tool.AllowUploadFiles = true)
    (hform : tool.InvokeEndpoints.Form ≠ "")
    (hmap : parseInputMap input = some ms)
    (hpaths : mapLookupLast ms UploadedFilePathsFieldName
        = some (Json.arr (paths.map Json.str))) :
    ((∀ p ∈ paths, ∃ c, fsLookup fs p = some c ∧ c ≠ []) →
      buildToolRequest sniff fs tool input
        = Except.ok ⟨tool.InvokeEndpoints.Form,
            ReqContentType.multipartFormData,
            RequestBody.multipartBody
              (Part.field FormDataKeyJson input
                :: paths.map fun p =>
                     Part.filePart FormDataKeyFile
                       (escapeQuotes (baseName p))
                       (sniff (pad512 ((fsLookup fs p).getD [])))
                       ((fsLookup fs p).getD []))⟩)
    ∧ (∀ pre q post, paths = pre ++ q :: post →
        (∀ r ∈ pre, ∃ c, fsLookup fs r = some c ∧ c ≠ []) →
        fsLookup fs q = none →
        ExecuteToolRequest sniff fs net tool input
          = Except.error (Err.ioOpen q)) := by
  constructor
  · intro hall
    have hatt := attachFiles_all_ok sniff fs paths hall
    unfold buildToolRequest
    simp [selectedEndpoint, hupload, hform, hmap, hpaths, hatt]
  · intro pre q post hsplit hpre hq
    subst hsplit
    have hatt := attachFiles_first_missing sniff fs q (post.map Json.str) hq
      pre hpre
    unfold ExecuteToolRequest buildToolRequest
    simp only [List.map_append, List.map_cons] at hpaths ⊢
    simp [selectedEndpoint, hupload, hform, hmap, hpaths, hatt]

/-- Witness for the amended C5: uploading `./testfile.txt` (bytes
"hi") produces the JSON field plus exactly one file part named after
the path's base name with the file's bytes. -/
theorem C5_witness :
    buildToolRequest (fun _ => "text/plain")
      [("./testfile.txt", [104, 105])]
      ⟨"t", "", none, true, ⟨"", "http://f"⟩⟩
      (Json.obj [("_uploaded_file_paths",
        Json.arr [Json.str "./testfile.txt"])])
      = Except.ok ⟨"http://f", ReqContentType.multipartFormData,
          RequestBody.multipartBody
            [Part.field "json" (Json.obj [("_uploaded_file_paths",
               Json.arr [Json.str "./testfile.txt"])]),
             Part.filePart "file" "testfile.txt" "text/plain"
               [104, 105]]⟩ :=
  (C5_amended_multipart_shape (fun _ => "text/plain")
    [("./testfile.txt", [104, 105])]
    (fun _ => ⟨200, Body.json Json.null⟩)
    ⟨"t", "", none, true, ⟨"", "http://f"⟩⟩
    (Json.obj [("_uploaded_file_paths",
      Json.arr [Json.str "./testfile.txt"])])
    [("_uploaded_file_paths", Json.arr [Json.str "./testfile.txt"])]
    ["./testfile.txt"]
    rfl (by decide) (by decide) (by decide)).1
    (fun p hp => by
      rw [List.mem_singleton] at hp
      subst hp
      exact ⟨[104, 105], rfl, by decide⟩)

/-- Counterexample to C6: a valid one-tool manifest whose declared
schema is the literal `null` registers successfully, but its exposed
schema is `null` unchanged — it is not an object carrying the
defaulted top-level `type: object` the claimed rule requires. -/
theorem C6_counterexample :
    registerToolHandlers
      [⟨"t", "d", some Json.null, false, ⟨"http://j", ""⟩⟩]
      = Except.ok [⟨"t", "d", Json.null⟩]
    ∧ hasTopLevelType Json.null = false :=
  ⟨by decide, by decide⟩

/-- Registration agrees tool-by-tool with the spec's augmentation rule
read on the Go-map form of the declared schema (with `null` schemas
passing through). -/
theorem registerToolHandlers_map_expose :
    ∀ tools : List Tool, (∀ t ∈ tools, schemaDecodes t = true) →
    registerToolHandlers tools = Except.ok (tools.map exposeToolSpec)
  | [], _ => rfl
  | t :: ts, h => by
      have ht := h t (List.mem_cons_self t ts)
      have hts := registerToolHandlers_map_expose ts
        (fun u hu => h u (List.mem_cons_of_mem t hu))
      have hone : registerTool t = Except.ok (exposeToolSpec t) := by
        rcases t with ⟨n, d, schema, up, eps⟩
        cases schema with
        | none => simp [schemaDecodes] at ht
        | some j =>
            cases j with
            | null => rfl
            | obj ms => rfl
            | bool b => simp [schemaDecodes] at ht
            | num k => simp [schemaDecodes] at ht
            | str s => simp [schemaDecodes] at ht
            | arr xs => simp [schemaDecodes] at ht
      simp only [registerToolHandlers, hone, hts, List.map_cons]

/-- C6 as amended: for every manifest whose tools all carry a
decodable schema document (an object or the literal `null`),
registration succeeds and exposes exactly N tools, each transformed by
the augmentation rule on the Go-map form of its declared object schema
(top-level `type` defaulted to "object" when absent; for
upload-capable tools `properties` ensured and the reserved file-paths
field injected when `properties` is an object), while a literal-null
schema is exposed as `null` unchanged. -/
theorem C6_amended_schema_augmentation (tools : List Tool)
    (h : ∀ t ∈ tools, schemaDecodes t = true) :
    registerToolHandlers tools = Except.ok (tools.map exposeToolSpec)
    ∧ (tools.map exposeToolSpec).length = tools.length :=
  ⟨registerToolHandlers_map_expose tools h, List.length_map _ _⟩

/-- Witness for the amended C6: a two-tool manifest — an
upload-capable tool with declared `type` and `properties`, and a plain
tool with an empty object schema — registers both tools, injecting the
reserved field into the first and defaulting `type` on the second. -/
theorem C6_witness :
    registerToolHandlers
      [⟨"a", "da", some (Json.obj
          [("type", Json.str "object"),
           ("properties", Json.obj
             [("x", Json.obj [("type", Json.str "string")])])]),
        true, ⟨"", "http://f"⟩⟩,
       ⟨"b", "db", some (Json.obj []), false, ⟨"http://j", ""⟩⟩]
      = Except.ok
          [⟨"a", "da", Json.obj
            [("properties", Json.obj
              [("_uploaded_file_paths", Json.obj
                [("description",
                  Json.str "List of file paths to be uploaded"),
                 ("items", Json.obj
                   [("description",
                     Json.str "Path to the uploaded file"),
                    ("type", Json.str "string")]),
                 ("type", Json.str "array")]),
               ("x", Json.obj [("type", Json.str "string")])]),
             ("type", Json.str "object")]⟩,
           ⟨"b", "db", Json.obj [("type", Json.str "object")]⟩]
    ∧ ([⟨"a", "da", some (Json.obj
          [("type", Json.str "object"),
           ("properties", Json.obj
             [("x", Json.obj [("type", Json.str "string")])])]),
        true, ⟨"", "http://f"⟩⟩,
        (⟨"b", "db", some (Json.obj []), false, ⟨"http://j", ""⟩⟩ : Tool)].map
          exposeToolSpec).length = 2 :=
  C6_amended_schema_augmentation
    [⟨"a", "da", some (Json.obj
        [("type", Json.str "object"),
         ("properties", Json.obj
           [("x", Json.obj [("type", Json.str "string")])])]),
      true, ⟨"", "http://f"⟩⟩,
     ⟨"b", "db", some (Json.obj []), false, ⟨"http://j", ""⟩⟩]
    (by decide)

end AsgardMcp
